import Mathlib

/-!
Shallow embedding of the WeekendWish recommendation/routing core
(src/api_updated.py and src/streamlit_app.py), with theorems settling the
frozen claims about its natural-language specification.

Modelling conventions:
* Python scalar values that flow through the dynamic record fields are
  modelled by `Value` (a number, a string, or Python's None).  Machine
  floats are modelled by `ℚ`; the external math library functions
  (`math.log1p`) and the external geodesic distance (`geopy.distance
  .geodesic(...).meters`) are abstract function parameters, since both are
  collaborators outside the core being specified.
* Python's `float(x)` builtin is modelled by `parseFloat` (numbers parse to
  themselves, strings are parsed as an optionally signed decimal literal,
  `None` fails).  Exponent/inf/nan literal forms are not modelled; no claim
  depends on them.
* Fallible code paths (a `try`/`except` whose handler can itself raise)
  are modelled with `Except Unit`.
-/

namespace WeekendWish

/-- A dynamically typed Python value as it appears in the record fields the
core reads: a number, a string, or `None`. -/
inductive Value
  | num (q : ℚ)
  | str (s : String)
  | vnone
deriving DecidableEq

/-- Python truthiness for `Value`: `0`, `""` and `None` are falsy. -/
def truthy : Value → Bool
  | .num q => q ≠ 0
  | .str s => s ≠ ""
  | .vnone => false

/-- Models the Python idiom `v or 0`. -/
def orZero (v : Value) : Value :=
  if truthy v then v else Value.num 0

/-- Numeric value of a list of decimal digit characters (most significant
first), as accumulated left to right. -/
def natOfDigits (l : List Char) : ℕ :=
  l.foldl (fun n c => n * 10 + (c.toNat - 48)) 0

/-- Parse an unsigned decimal literal (digits with at most one dot; at least
one digit overall), as accepted by Python's `float`. -/
def parseDec (l : List Char) : Option ℚ :=
  let intPart := l.takeWhile (fun c => c ≠ '.')
  let rest := l.dropWhile (fun c => c ≠ '.')
  match rest with
  | [] =>
    if intPart ≠ [] ∧ intPart.all Char.isDigit then some (natOfDigits intPart) else none
  | _ :: frac =>
    if (intPart ≠ [] ∨ frac ≠ []) ∧ intPart.all Char.isDigit ∧ frac.all Char.isDigit then
      some ((natOfDigits intPart : ℚ) + (natOfDigits frac : ℚ) / (10 : ℚ) ^ frac.length)
    else none

/-- Models Python's `float(x)` on a `Value`: numbers convert, strings are
parsed as optionally signed decimal literals (surrounding spaces stripped),
everything else (in particular `None`) raises, modelled as `none`. -/
def parseFloat : Value → Option ℚ
  | .num q => some q
  | .vnone => none
  | .str s =>
    let l := s.toList.dropWhile (fun c => c = ' ')
    let l := (l.reverse.dropWhile (fun c => c = ' ')).reverse
    match l with
    | '-' :: rest => (parseDec rest).map (fun q => -q)
    | '+' :: rest => parseDec rest
    | rest => parseDec rest

/-- `popularity_score` from src/streamlit_app.py: `float(p)` then
`p * math.log1p(p)`, any exception (unparseable value, or the `log1p`
domain error on `p ≤ -1`) yields `0.0`.  `log1p` is the abstract math
collaborator, only applied on its domain `p > -1`. -/
def popularity_score (log1p : ℚ → ℚ) (v : Value) : ℚ :=
  match parseFloat v with
  | none => 0
  | some p => if p ≤ -1 then 0 else p * log1p p

/-- The `except` handler of the score computation in `recommend_places`
(src/api_updated.py): `score = float(popularity or 0)` — this conversion can
itself raise, aborting the whole pass, modelled as `Except.error ()`. -/
def apiScoreExceptBranch (popularity : Value) : Except Unit ℚ :=
  match parseFloat (orZero popularity) with
  | some p => Except.ok p
  | none => Except.error ()

/-- The score computation in `recommend_places` (src/api_updated.py):
`try: score = float(popularity) * log1p(float(popularity or 0))` with the
handler `apiScoreExceptBranch`.  A failed conversion or a `log1p` domain
error (argument ≤ -1) falls to the handler. -/
def apiScoreVal (log1p : ℚ → ℚ) (popularity : Value) : Except Unit ℚ :=
  match parseFloat popularity with
  | none => apiScoreExceptBranch popularity
  | some p =>
    match parseFloat (orZero popularity) with
    | none => apiScoreExceptBranch popularity
    | some q =>
      if q ≤ -1 then apiScoreExceptBranch popularity else Except.ok (p * log1p q)

/-- `allowed_price_level` from `recommend_places` (src/api_updated.py):
maps a per-person budget to the maximum allowed price tier. -/
def allowed_price_level (budget_pp : ℚ) : ℕ :=
  if budget_pp < 200 then 1
  else if budget_pp < 500 then 2
  else if budget_pp < 1200 then 3
  else 4

/-- The budget filter condition of `recommend_places` (src/api_updated.py):
`(price is not None) and (isinstance(price, (int, float)) and
price > max_price_lvl)`. -/
def budgetDrop (price : Value) (maxLvl : ℕ) : Bool :=
  match price with
  | .num q => decide ((maxLvl : ℚ) < q)
  | _ => false

/-- A raw place record as consumed by the cleaning loop of
`recommend_places`.  Fields not read by any ranking decision (id, address,
photo, coordinates, which are copied through or produced by external
helpers) are omitted. -/
structure FsqPlace where
  name : Value
  price : Value
  popularity : Value
deriving DecidableEq

/-- A cleaned candidate produced by the loop of `recommend_places`. -/
structure Cleaned where
  name : Value
  price : Value
  popularity : Value
  score : ℚ
deriving DecidableEq

/-- The per-record cleaning pass of `recommend_places`
(src/api_updated.py): budget-filter, then score; an exception escaping the
score computation aborts the whole pass. -/
def clean_pass (log1p : ℚ → ℚ) (maxLvl : ℕ) : List FsqPlace → Except Unit (List Cleaned)
  | [] => Except.ok []
  | p :: ps =>
    if budgetDrop p.price maxLvl then clean_pass log1p maxLvl ps
    else
      match apiScoreVal log1p (orZero p.popularity) with
      | Except.error e => Except.error e
      | Except.ok sc =>
        match clean_pass log1p maxLvl ps with
        | Except.error e => Except.error e
        | Except.ok rest =>
          Except.ok ({ name := p.name, price := p.price,
                       popularity := orZero p.popularity, score := sc } :: rest)

/-- Bool test: does `needle` occur at the start of `hay`? (list form of
Python substring matching, helper for `in`). -/
def startsWithB : List Char → List Char → Bool
  | [], _ => true
  | _ :: _, [] => false
  | c :: cs, d :: ds => (c = d) && startsWithB cs ds

/-- Bool test: does `needle` occur somewhere inside `hay`?  Models Python's
`needle in hay` on strings (the empty needle matches). -/
def containsB (needle : List Char) : List Char → Bool
  | [] => needle.isEmpty
  | c :: cs => startsWithB needle (c :: cs) || containsB needle cs

/-- `match_category_offline` from src/streamlit_app.py: case-insensitive
substring search of the category in the concatenated name/tags/category
text of the row (given here already concatenated as `txt`). -/
def matchTextOffline (txt : String) (cat : String) : Bool :=
  containsB cat.toLower.toList txt.toLower.toList

/-- An offline CSV row as read by `search_offline` (src/streamlit_app.py).
`popularity` uses `Value.vnone` for a missing (NaN) cell; `price` is
carried to show it is never consulted. -/
structure Row where
  name : String
  address : String
  tags : String
  category : String
  lat : ℚ
  lon : ℚ
  popularity : Value
  price : Value
deriving DecidableEq

/-- `match_category_offline` applied to a `Row`: the guard for `"any"` or
empty category, then substring match over `f"{name} {tags} {category}"`. -/
def match_category_offline (r : Row) (cat : String) : Bool :=
  if cat = "" || cat = "any" then true
  else matchTextOffline (r.name ++ " " ++ r.tags ++ " " ++ r.category) cat

/-- The row-filtering stage of `search_offline` (src/streamlit_app.py):
radius filter on the computed distance, then (when a real category is
selected) the category filter.  `dist` abstracts
`geodesic(...).meters`. -/
def offline_filter (dist : ℚ × ℚ → ℚ × ℚ → ℚ) (lat0 lon0 radius_m : ℚ)
    (cat : String) (rows : List Row) : List Row :=
  let byRadius := rows.filter (fun r => dist (lat0, lon0) (r.lat, r.lon) ≤ radius_m)
  if cat ≠ "" && cat ≠ "any" then
    byRadius.filter (fun r => match_category_offline r cat)
  else byRadius

/-- Models pandas `fillna(0)` on a popularity cell. -/
def fillnaZero (v : Value) : Value :=
  match v with
  | .vnone => .num 0
  | v => v

/-- A scored offline row (the DataFrame row after the `distance_m` and
`score` columns are added). -/
structure ScoredRow where
  row : Row
  distance_m : ℚ
  score : ℚ
deriving DecidableEq

/-- An offline search result dictionary as built by `search_offline`. -/
structure OffResult where
  name : String
  address : String
  popularity : Value
  lat : ℚ
  lon : ℚ
  distance_m : ℚ
deriving DecidableEq

/-- `search_offline` from src/streamlit_app.py: filter by radius and
category, score by popularity (`fillna(0)` then `popularity_score`; a
missing popularity column scores everything 0), sort descending by score,
keep the first `top_n`.  `sortByScoreDesc` abstracts pandas
`sort_values("score", ascending=False)` — its tie behavior (default
`kind` is quicksort) is not pinned by this embedding.  The `budget_pp`
argument is received, as in the source, and never used. -/
def search_offline (dist : ℚ × ℚ → ℚ × ℚ → ℚ)
    (sortByScoreDesc : List ScoredRow → List ScoredRow) (log1p : ℚ → ℚ)
    (popcolPresent : Bool) (lat0 lon0 radius_m budget_pp : ℚ) (cat : String)
    (top_n : ℕ) (rows : List Row) : List OffResult :=
  let kept := offline_filter dist lat0 lon0 radius_m cat rows
  let scored := kept.map (fun r =>
    { row := r
      distance_m := dist (lat0, lon0) (r.lat, r.lon)
      score := if popcolPresent then popularity_score log1p (fillnaZero r.popularity)
               else 0 : ScoredRow })
  ((sortByScoreDesc scored).take top_n).map (fun s =>
    { name := s.row.name, address := s.row.address
      popularity := if popcolPresent then s.row.popularity else Value.vnone
      lat := s.row.lat, lon := s.row.lon, distance_m := s.distance_m })

/-- Truthiness of an optional coordinate, as tested by
`if lat2 and lon2 else None` in `search_online` (src/streamlit_app.py):
a missing coordinate and the coordinate `0` are both falsy. -/
def truthyCoord : Option ℚ → Bool
  | some q => q ≠ 0
  | none => false

/-- The `distance_m` assignment of `search_online` (src/streamlit_app.py,
lines 179-181): `geodesic((lat0, lon0), (lat2, lon2)).meters if lat2 and
lon2 else None`.  `dist` abstracts the geodesic collaborator. -/
def online_distance (dist : ℚ × ℚ → ℚ × ℚ → ℚ) (lat0 lon0 : ℚ)
    (lat2 lon2 : Option ℚ) : Option ℚ :=
  if truthyCoord lat2 && truthyCoord lon2 then
    some (dist (lat0, lon0) (lat2.getD 0, lon2.getD 0))
  else none

/-- A POI dictionary as passed to `order_route` and the itinerary
generator (a search-result record; the address field, only echoed in the
display text, is omitted). -/
structure Poi where
  name : String
  lat : Option ℚ
  lon : Option ℚ
  distance_m : Option ℚ
  popularity : Value
deriving DecidableEq

/-- The validity test of `order_route`: `p.get("lat") is not None and
p.get("lon") is not None`. -/
def hasCoords (p : Poi) : Bool :=
  p.lat.isSome && p.lon.isSome

/-- The coordinate pair of a place (meaningful when `hasCoords`). -/
def coords (p : Poi) : ℚ × ℚ :=
  (p.lat.getD 0, p.lon.getD 0)

/-- Python's `min(l, key)` on a nonempty list `b :: l`: scan left to
right, replacing the current best only on a strictly smaller key, so the
first minimal element wins. -/
def pyMin {α : Type} (key : α → ℚ) : α → List α → α
  | best, [] => best
  | best, q :: qs => if key q < key best then pyMin key q qs else pyMin key best qs

/-- The loop of `order_route` (src/streamlit_app.py), with explicit fuel
(one unit per iteration; `order_route` supplies `remaining.length`, which
is exact since every iteration removes one element).  When no remaining
place has both coordinates the remaining list is appended wholesale and
the loop breaks; otherwise the nearest valid place (first minimal, by
Python's `min`) is appended, removed (`list.remove`: first equal element),
and becomes the current position. -/
def order_route_fuel (dist : ℚ × ℚ → ℚ × ℚ → ℚ) :
    ℕ → List Poi → ℚ × ℚ → List Poi
  | 0, remaining, _ => remaining
  | fuel + 1, remaining, current =>
    match remaining.filter hasCoords with
    | [] => remaining
    | v :: vs =>
      let nearest := pyMin (fun p => dist current (coords p)) v vs
      nearest :: order_route_fuel dist fuel (remaining.erase nearest) (coords nearest)

/-- `order_route` from src/streamlit_app.py: greedy nearest-neighbor
ordering of `pois` starting from `(start_lat, start_lon)`. -/
def order_route (dist : ℚ × ℚ → ℚ × ℚ → ℚ) (pois : List Poi)
    (start : ℚ × ℚ) : List Poi :=
  order_route_fuel dist pois.length pois start

/-- Python `int()` on a rational: truncation toward zero. -/
def truncQ (q : ℚ) : ℤ :=
  if 0 ≤ q then ⌊q⌋ else ⌈q⌉

/-- The travel-time expression of the fallback itinerary generator
(src/streamlit_app.py line 332):
`int(max(1, (dist_km / avg_speed_kmph) * 60)) if idx > 1 else 0` with
`avg_speed_kmph = 20.0`. -/
def mkTravel (isFirst : Bool) (dkm : ℚ) : ℤ :=
  if isFirst then 0 else truncQ (max 1 (dkm / 20 * 60))

/-- The stay-duration heuristic of the fallback itinerary generator
(src/streamlit_app.py lines 335-348): `None` popularity gives 45, a
parseable popularity gives the ≥8/≥5 tiers, an unparseable one gives
45 via the `except` branch. -/
def durationMin (pop : Value) : ℕ :=
  match pop with
  | Value.vnone => 45
  | v =>
    match parseFloat v with
    | some p => if 8 ≤ p then 90 else if 5 ≤ p then 60 else 40
    | none => 45

/-- One line of the deterministic fallback itinerary: the quantities the
generator derives for a stop. -/
structure StopInfo where
  name : String
  dist_km : ℚ
  travel_min : ℤ
  arrival_min : ℤ
  duration_min : ℕ
  depart_min : ℤ
deriving DecidableEq

/-- The per-stop loop of the deterministic fallback in
`generate_itinerary_via_groq_or_fallback` (src/streamlit_app.py lines
324-358): `dist_km = (p.get("distance_m") or 0) / 1000.0`, travel time via
`mkTravel`, arrival = current time + travel, departure = arrival +
duration, and the departure becomes the next stop's current time. -/
def annotate_aux : List Poi → ℤ → Bool → List StopInfo
  | [], _, _ => []
  | p :: ps, curr, isFirst =>
    { name := p.name
      dist_km := p.distance_m.getD 0 / 1000
      travel_min := mkTravel isFirst (p.distance_m.getD 0 / 1000)
      arrival_min := curr + mkTravel isFirst (p.distance_m.getD 0 / 1000)
      duration_min := durationMin p.popularity
      depart_min := curr + mkTravel isFirst (p.distance_m.getD 0 / 1000)
                    + (durationMin p.popularity : ℤ) : StopInfo }
      :: annotate_aux ps
          (curr + mkTravel isFirst (p.distance_m.getD 0 / 1000)
            + (durationMin p.popularity : ℤ)) false

/-- The deterministic fallback itinerary over an ordered POI list,
starting at `9 * 60` minutes (09:00). -/
def annotate (ordered : List Poi) : List StopInfo :=
  annotate_aux ordered (9 * 60) true

/-! ### Concrete instances used by closed theorems

The abstract collaborators (geodesic distance, `log1p`, the pandas sort)
are instantiated with simple concrete functions where a closed evaluation
is needed; the universally quantified theorems hold for every
collaborator. -/

/-- A concrete distance function (a finite lookup table, in meters) used
to evaluate the route logic on closed inputs: from the start `(0, 0)` the
point `(0, 1)` is 1000 m away and `(0, 3)` is 3000 m away, while from
`(0, 1)` the point `(0, 3)` is only 2000 m away. -/
def tblDist : ℚ × ℚ → ℚ × ℚ → ℚ := fun a b =>
  if b = (0, 1) then if a = (0, 0) then 1000 else 9999
  else if b = (0, 3) then
    if a = (0, 0) then 3000 else if a = (0, 1) then 2000 else 9999
  else 9999

/-- A concrete constant distance collaborator. -/
def constDist : ℚ × ℚ → ℚ × ℚ → ℚ := fun _ _ => 0

/-- A concrete sort collaborator (identity on an already-sorted list). -/
def idSort : List ScoredRow → List ScoredRow := id

/-- A concrete `log1p` collaborator. -/
def zeroLog : ℚ → ℚ := fun _ => 0

/-- A well-formed place record. -/
def goodPlace : FsqPlace := ⟨Value.str "Good", Value.vnone, Value.num 7⟩

/-- A place record whose popularity is a truthy non-numeric string. -/
def badPopPlace : FsqPlace := ⟨Value.str "Bad", Value.vnone, Value.str "very popular"⟩

/-- An offline row with price tier 4, popularity 3, at taxicab position
(1, 2). -/
def rowP4 : Row := ⟨"x", "a", "", "", 1, 2, Value.num 3, Value.num 4⟩

/-- Claim C7: the score is `popularity * ln(1 + popularity)` for a
non-negative numeric popularity and `0` when the popularity is absent or
non-numeric, in both ranking paths.  The streamlit-side `popularity_score`
does return 0 on a non-numeric or absent popularity, but in the
api_updated.py path the `except` handler calls `float` on the very same
non-numeric value again, so the score computation raises instead of
producing 0: evaluated at popularity `"abc"` the embedded computation is
`Except.error`, not `Except.ok 0`. -/
theorem c7_api_nonnumeric_popularity_raises (log1p : ℚ → ℚ) :
    popularity_score log1p (Value.str "abc") = 0 ∧
    popularity_score log1p Value.vnone = 0 ∧
    apiScoreVal log1p (orZero (Value.str "abc")) = Except.error () :=
  ⟨rfl, rfl, rfl⟩

/-- Claim C9: a malformed per-record field must never abort the whole
ranking pass.  Evaluating the embedded cleaning pass of `recommend_places`
on a list holding one well-formed record and one record whose popularity
is a truthy non-numeric string: the whole pass aborts with an error (the
well-formed record's result is lost too), while the streamlit-side
`popularity_score` on the same malformed value yields 0 as the claim
describes. -/
theorem c9_malformed_popularity_aborts_pass (log1p : ℚ → ℚ) :
    clean_pass log1p 4 [goodPlace, badPopPlace] = Except.error () ∧
    popularity_score log1p (Value.str "very popular") = 0 :=
  ⟨rfl, rfl⟩

/-- Claim C10: in the online search path a place with a latitude or
longitude of exactly 0 gets `distance_m = None` although both coordinates
are present, because the check `if lat2 and lon2` tests numeric truthiness
rather than non-nullness. -/
theorem c10_zero_coordinate_gets_none_distance (dist : ℚ × ℚ → ℚ × ℚ → ℚ)
    (lat0 lon0 q : ℚ) :
    (online_distance dist lat0 lon0 (some 0) (some q) = none ∧
      (some (0 : ℚ)).isSome = true ∧ (some q).isSome = true) ∧
    online_distance dist lat0 lon0 (some q) (some 0) = none := by
  refine ⟨⟨?_, rfl, rfl⟩, ?_⟩ <;> simp [online_distance, truthyCoord]

/-! ### Lemmas about the fallback itinerary annotation -/

/-- Python's `int(max(1, x))` equals `max 1 ⌊x⌋`: the argument is at least
1, so truncation toward zero is the floor, and the floor commutes with the
max against the integer 1. -/
theorem truncQ_max_one (x : ℚ) : truncQ (max 1 x) = max 1 ⌊x⌋ := by
  have h0 : (0 : ℚ) ≤ max 1 x := le_trans zero_le_one (le_max_left 1 x)
  rw [truncQ, if_pos h0]
  rcases le_total x 1 with h | h
  · rw [max_eq_left h, Int.floor_one]
    have h2 : ⌊x⌋ ≤ 1 := by simpa using Int.floor_le_floor h
    exact (max_eq_left h2).symm
  · rw [max_eq_right h]
    have h2 : 1 ≤ ⌊x⌋ := by simpa using Int.floor_le_floor h
    exact (max_eq_right h2).symm

/-- The head stop record built by one iteration of the fallback loop. -/
def mkStop (p : Poi) (curr : ℤ) (isFirst : Bool) : StopInfo :=
  { name := p.name
    dist_km := p.distance_m.getD 0 / 1000
    travel_min := mkTravel isFirst (p.distance_m.getD 0 / 1000)
    arrival_min := curr + mkTravel isFirst (p.distance_m.getD 0 / 1000)
    duration_min := durationMin p.popularity
    depart_min := curr + mkTravel isFirst (p.distance_m.getD 0 / 1000)
                  + (durationMin p.popularity : ℤ) }

/-- `annotate_aux` unfolds one iteration to `mkStop`. -/
theorem annotate_aux_cons (p : Poi) (ps : List Poi) (curr : ℤ) (isFirst : Bool) :
    annotate_aux (p :: ps) curr isFirst
      = mkStop p curr isFirst
        :: annotate_aux ps (mkStop p curr isFirst).depart_min false := rfl

/-- The duration column of the annotation is `durationMin` of each POI's
popularity, stop by stop. -/
theorem annotate_map_duration : ∀ (ps : List Poi) (curr : ℤ) (first : Bool),
    (annotate_aux ps curr first).map (fun s => s.duration_min)
      = ps.map (fun p => durationMin p.popularity)
  | [], _, _ => rfl
  | p :: ps, curr, first => by
    rw [annotate_aux_cons, List.map_cons, List.map_cons,
      annotate_map_duration ps _ false]
    rfl

/-- Any two consecutive stops of the annotation satisfy the travel-time
formula (with truncation) and the arrival = previous departure + travel
chaining. -/
theorem annotate_aux_chain : ∀ (ps : List Poi) (curr : ℤ) (first : Bool)
    (i : ℕ) (a b : StopInfo),
    (annotate_aux ps curr first).get? i = some a →
    (annotate_aux ps curr first).get? (i + 1) = some b →
    b.travel_min = max 1 ⌊b.dist_km / 20 * 60⌋ ∧
    b.arrival_min = a.depart_min + b.travel_min
  | [], _, _, i, a, b, ha, _ => by simp [annotate_aux] at ha
  | p :: ps, curr, first, 0, a, b, ha, hb => by
    have ha2 : some (mkStop p curr first) = some a := ha
    cases ha2
    cases ps with
    | nil => simp [annotate_aux] at hb
    | cons q ps2 =>
      have hb2 : some (mkStop q (mkStop p curr first).depart_min false) = some b := hb
      cases hb2
      refine ⟨?_, rfl⟩
      show mkTravel false (q.distance_m.getD 0 / 1000) = _
      rw [show mkTravel false (q.distance_m.getD 0 / 1000)
            = truncQ (max 1 (q.distance_m.getD 0 / 1000 / 20 * 60)) from rfl]
      exact truncQ_max_one _
  | p :: ps, curr, first, i + 1, a, b, ha, hb => by
    have ha2 : (annotate_aux ps (mkStop p curr first).depart_min false).get? i
        = some a := ha
    have hb2 : (annotate_aux ps (mkStop p curr first).depart_min false).get? (i + 1)
        = some b := hb
    exact annotate_aux_chain ps _ false i a b ha2 hb2

/-- First element of the second-stop-onwards list used in C1/C2 closed
theorems. -/
def w2p1 : Poi := ⟨"s1", some 0, some 0, some 1000, Value.vnone⟩

/-- A stop whose recorded distance is 500 m. -/
def w2p2 : Poi := ⟨"s2", some 0, some 0, some 500, Value.vnone⟩

/-- The annotation record of `w2p1` as first stop. -/
def wS0 : StopInfo := ⟨"s1", 1, 0, 540, 45, 585⟩

/-- The annotation record of `w2p2` as second stop. -/
def wS1 : StopInfo := ⟨"s2", 1 / 2, 1, 586, 45, 631⟩

/-- Claim C2 as stated is false: the travel time is computed with Python's
`int(...)` truncation, not a ceiling.  At a recorded distance of 500 m the
second stop's `travel_minutes` is `int(max(1, 0.5 / 20 * 60)) =
int(1.5) = 1`, while `ceil(0.5 / 20 * 60) = 2`. -/
theorem c2_ceiling_counterexample :
    (annotate [w2p1, w2p2]).map (fun s => s.travel_min) = [0, 1] ∧
    (annotate [w2p1, w2p2]).map (fun s => s.dist_km) = [1, 1 / 2] ∧
    Int.ceil ((1 : ℚ) / 2 / 20 * 60) = 2 ∧ (1 : ℤ) ≠ 2 := by
  refine ⟨?_, ?_, ?_, by decide⟩
  · norm_num [annotate, annotate_aux, mkTravel, truncQ, w2p1, w2p2]
  · norm_num [annotate, annotate_aux, w2p1, w2p2]
  · rw [show (2 : ℤ) = 1 + 1 from rfl, Int.ceil_eq_iff]
    norm_num

/-- Claim C2 (amended): in the time annotation, every stop after the first
has `travel_minutes = max 1 ⌊dist_km / 20 * 60⌋` (integer truncation with
a minimum of 1, not a ceiling), the first stop's `travel_minutes` is 0,
and every arrival time is the previous stop's departure time plus the
stop's `travel_minutes`, starting from 09:00 (= 540 minutes). -/
theorem c2_travel_time_and_chaining (ordered : List Poi) :
    (∀ a : StopInfo, (annotate ordered).get? 0 = some a →
      a.travel_min = 0 ∧ a.arrival_min = 9 * 60) ∧
    (∀ (i : ℕ) (a b : StopInfo), (annotate ordered).get? i = some a →
      (annotate ordered).get? (i + 1) = some b →
      b.travel_min = max 1 ⌊b.dist_km / 20 * 60⌋ ∧
      b.arrival_min = a.depart_min + b.travel_min) := by
  constructor
  · intro a ha
    cases ordered with
    | nil => simp [annotate, annotate_aux] at ha
    | cons p ps =>
      have ha2 : some (mkStop p (9 * 60) true) = some a := ha
      cases ha2
      exact ⟨rfl, by simp [mkStop, mkTravel]⟩
  · exact fun i a b ha hb => annotate_aux_chain ordered (9 * 60) true i a b ha hb

/-- Witness for C2 (amended): on the concrete two-stop route the second
stop's travel time is `max 1 ⌊0.5 / 20 * 60⌋ = 1` and its arrival is the
first stop's departure plus that travel time. -/
theorem c2_travel_time_and_chaining_witness :
    (annotate [w2p1, w2p2]).get? 0 = some wS0 ∧
    (annotate [w2p1, w2p2]).get? 1 = some wS1 ∧
    (wS1.travel_min = max 1 ⌊wS1.dist_km / 20 * 60⌋ ∧
      wS1.arrival_min = wS0.depart_min + wS1.travel_min) :=
  have h0 : (annotate [w2p1, w2p2]).get? 0 = some wS0 := by
    norm_num [annotate, annotate_aux, mkTravel, truncQ, w2p1, w2p2, wS0, durationMin]
  have h1 : (annotate [w2p1, w2p2]).get? 1 = some wS1 := by
    norm_num [annotate, annotate_aux, mkTravel, truncQ, w2p1, w2p2, wS1, durationMin]
  ⟨h0, h1, (c2_travel_time_and_chaining [w2p1, w2p2]).2 0 wS0 wS1 h0 h1⟩

/-- The start-center POI `A`: 1000 m from the query center, stored in its
`distance_m` field. -/
def pA : Poi := ⟨"A", some 0, some 1, some 1000, Value.num 1⟩

/-- The POI `B`: 3000 m from the query center (stored), but only 2000 m
from `A` under the same metric. -/
def pB : Poi := ⟨"B", some 0, some 3, some 3000, Value.num 1⟩

/-- Claim C1: the distance annotated on each stop (and used for its
travel-time estimate) should be the distance from the previous stop.  The
code never recomputes distances after ordering: `order_route` keeps each
POI's stored `distance_m` (the distance from the original query center)
and the itinerary generator divides exactly that by 1000 while printing it
as "km from previous".  On the route `[A, B]` from start `(0, 0)` the
second stop is annotated `3` km (its center distance), while its distance
from the previous stop `A` is `2` km. -/
theorem c1_annotation_uses_center_distance :
    order_route tblDist [pB, pA] (0, 0) = [pA, pB] ∧
    (annotate (order_route tblDist [pB, pA] (0, 0))).map (fun s => s.dist_km)
      = [1, 3] ∧
    tblDist (coords pA) (coords pB) / 1000 = 2 ∧ (3 : ℚ) ≠ 2 := by
  have h : order_route tblDist [pB, pA] (0, 0) = [pA, pB] := by decide
  refine ⟨h, ?_, ?_, by norm_num⟩
  · rw [h]
    norm_num [annotate, annotate_aux, pA, pB]
  · norm_num [tblDist, coords, pA, pB]

/-- Claim C8: the assigned `duration_minutes` of every annotated stop is 90
for a popularity parsing to at least 8, 60 for at least 5, otherwise 40,
with 45 as the default exactly in the absent/unparseable-popularity
case. -/
theorem c8_duration_tiers (ordered : List Poi) :
    ((annotate ordered).map (fun s => s.duration_min)
        = ordered.map (fun p => durationMin p.popularity)) ∧
    (∀ (v : Value) (p : ℚ), parseFloat v = some p →
      durationMin v = if 8 ≤ p then 90 else if 5 ≤ p then 60 else 40) ∧
    durationMin Value.vnone = 45 ∧
    (∀ v : Value, parseFloat v = none → durationMin v = 45) := by
  refine ⟨annotate_map_duration ordered (9 * 60) true, ?_, rfl, ?_⟩
  · intro v p hv
    cases v with
    | vnone => simp [parseFloat] at hv
    | num q => simp only [durationMin, hv]
    | str s => simp only [durationMin, hv]
  · intro v hv
    cases v with
    | vnone => rfl
    | num q => simp only [durationMin, hv]
    | str s => simp only [durationMin, hv]

/-- Witness for C8: a popularity of 9 parses and is assigned 90 minutes. -/
theorem c8_duration_tiers_witness :
    parseFloat (Value.num 9) = some 9 ∧
    durationMin (Value.num 9)
      = if (8 : ℚ) ≤ 9 then 90 else if (5 : ℚ) ≤ 9 then 60 else 40 :=
  ⟨rfl, (c8_duration_tiers []).2.1 (Value.num 9) 9 rfl⟩

/-- Claim C4 as stated is false on the offline path: `search_offline`
never consults the price (its `budget_pp` parameter is unused), so a
candidate whose numeric price tier 4 strictly exceeds the maximum tier 1
derived from `budget_per_person = 150` is still retained, and no tier-2
imputation for a missing price ever happens. -/
theorem c4_offline_ignores_budget_counterexample :
    allowed_price_level 150 = 1 ∧ rowP4.price = Value.num 4 ∧ (1 : ℚ) < 4 ∧
    search_offline constDist idSort zeroLog true 0 0 1000 150 "any" 50 [rowP4]
      = [⟨"x", "a", Value.num 3, 1, 2, 0⟩] := by decide

/-- Claim C4 (amended): the thresholds map `budget_per_person` to the
maximum tier exactly as stated, and the ONLINE budget filter drops a
candidate iff its price is present, numeric, and strictly greater than
that maximum tier (a dropped record is skipped by the cleaning pass);
the OFFLINE path applies no budget filter at all — `search_offline` is
independent of `budget_per_person` and never drops a candidate by
price. -/
theorem c4_budget_filter (b : ℚ) (price : Value) (maxLvl : ℕ) :
    (b < 200 → allowed_price_level b = 1) ∧
    (200 ≤ b → b < 500 → allowed_price_level b = 2) ∧
    (500 ≤ b → b < 1200 → allowed_price_level b = 3) ∧
    (1200 ≤ b → allowed_price_level b = 4) ∧
    (budgetDrop price maxLvl = true ↔
      ∃ q : ℚ, price = Value.num q ∧ (maxLvl : ℚ) < q) ∧
    (∀ (log1p : ℚ → ℚ) (p : FsqPlace) (ps : List FsqPlace),
      budgetDrop p.price maxLvl = true →
      clean_pass log1p maxLvl (p :: ps) = clean_pass log1p maxLvl ps) ∧
    (∀ (dist : ℚ × ℚ → ℚ × ℚ → ℚ) (sortF : List ScoredRow → List ScoredRow)
      (log1p : ℚ → ℚ) (popc : Bool) (lat0 lon0 radius b₁ b₂ : ℚ)
      (cat : String) (tn : ℕ) (rows : List Row),
      search_offline dist sortF log1p popc lat0 lon0 radius b₁ cat tn rows
        = search_offline dist sortF log1p popc lat0 lon0 radius b₂ cat tn rows) := by
  refine ⟨?_, ?_, ?_, ?_, ?_, ?_, ?_⟩
  · intro h; rw [allowed_price_level, if_pos h]
  · intro h1 h2
    rw [allowed_price_level, if_neg (not_lt.mpr h1), if_pos h2]
  · intro h1 h2
    rw [allowed_price_level, if_neg (by linarith), if_neg (not_lt.mpr h1), if_pos h2]
  · intro h1
    rw [allowed_price_level, if_neg (by linarith), if_neg (by linarith),
      if_neg (not_lt.mpr h1)]
  · cases price with
    | num q => simp [budgetDrop]
    | str s => simp [budgetDrop]
    | vnone => simp [budgetDrop]
  · intro log1p p ps h
    rw [clean_pass, if_pos h]
  · intro dist sortF log1p popc lat0 lon0 radius b₁ b₂ cat tn rows
    rfl

/-- Witness for C4 (amended): at `budget_per_person = 150` the max tier is
1; a price of 4 is dropped online (the cleaning pass skips the record) and
ignored offline (changing the budget does not change the offline
output). -/
theorem c4_budget_filter_witness :
    ((150 : ℚ) < 200 ∧ allowed_price_level 150 = 1) ∧
    (budgetDrop (Value.num 4) 1 = true ↔
      ∃ q : ℚ, Value.num 4 = Value.num q ∧ ((1 : ℕ) : ℚ) < q) ∧
    clean_pass zeroLog 1 [⟨Value.str "P", Value.num 4, Value.num 1⟩]
      = Except.ok [] ∧
    search_offline constDist idSort zeroLog true 0 0 1000 150 "any" 50 [rowP4]
      = search_offline constDist idSort zeroLog true 0 0 1000 999999 "any" 50 [rowP4] :=
  ⟨⟨by norm_num, (c4_budget_filter 150 (Value.num 4) 1).1 (by norm_num)⟩,
    (c4_budget_filter 150 (Value.num 4) 1).2.2.2.2.1,
    (c4_budget_filter 150 (Value.num 4) 1).2.2.2.2.2.1 zeroLog
      ⟨Value.str "P", Value.num 4, Value.num 1⟩ [] (by decide),
    (c4_budget_filter 150 (Value.num 4) 1).2.2.2.2.2.2 constDist idSort zeroLog
      true 0 0 1000 150 999999 "any" 50 [rowP4]⟩

/-! ### Lemmas about Python's first-minimal `min` and the greedy loop -/

/-- `pyMin` returns an element of the scanned list. -/
theorem pyMin_mem {α : Type} (key : α → ℚ) (b : α) (l : List α) :
    pyMin key b l ∈ b :: l := by
  induction l generalizing b with
  | nil => simp [pyMin]
  | cons q qs ih =>
    rw [pyMin]
    by_cases h : key q < key b
    · rw [if_pos h]
      have := ih q
      simp only [List.mem_cons] at this ⊢
      tauto
    · rw [if_neg h]
      have := ih b
      simp only [List.mem_cons] at this ⊢
      tauto

/-- The key of `pyMin`'s result is minimal over the scanned list. -/
theorem pyMin_key_le {α : Type} (key : α → ℚ) (b : α) (l : List α) :
    ∀ x ∈ b :: l, key (pyMin key b l) ≤ key x := by
  induction l generalizing b with
  | nil =>
    intro x hx
    simp only [List.mem_cons, List.not_mem_nil, or_false] at hx
    subst hx
    rw [pyMin]
  | cons q qs ih =>
    intro x hx
    rw [pyMin]
    simp only [List.mem_cons] at hx
    by_cases h : key q < key b
    · rw [if_pos h]
      rcases hx with h1 | h1 | h1
      · subst h1
        exact le_of_lt (lt_of_le_of_lt (ih q q (by simp)) h)
      · subst h1
        exact ih x x (by simp)
      · exact ih q x (by simp [h1])
    · rw [if_neg h]
      push_neg at h
      rcases hx with h1 | h1 | h1
      · subst h1
        exact ih x x (by simp)
      · subst h1
        exact le_trans (ih b b (by simp)) h
      · exact ih b x (by simp [h1])

/-- `pyMin` returns the FIRST minimal element: everything strictly before
its returned occurrence has a strictly larger key (Python's `min` only
replaces the running best on a strictly smaller key). -/
theorem pyMin_first {α : Type} (key : α → ℚ) (b : α) (l : List α) :
    ∃ xs ys, b :: l = xs ++ pyMin key b l :: ys ∧
      ∀ a ∈ xs, key (pyMin key b l) < key a := by
  induction l generalizing b with
  | nil => exact ⟨[], [], by simp [pyMin], by simp⟩
  | cons q qs ih =>
    rw [pyMin]
    by_cases h : key q < key b
    · rw [if_pos h]
      obtain ⟨xs, ys, heq, hlt⟩ := ih q
      refine ⟨b :: xs, ys, ?_, ?_⟩
      · rw [List.cons_append, ← heq]
      · intro a ha
        rcases List.mem_cons.mp ha with rfl | ha
        · exact lt_of_le_of_lt (pyMin_key_le key q qs q (by simp)) h
        · exact hlt a ha
    · rw [if_neg h]
      push_neg at h
      obtain ⟨xs, ys, heq, hlt⟩ := ih b
      cases xs with
      | nil =>
        simp only [List.nil_append] at heq
        obtain ⟨hb, hy⟩ := List.cons.inj heq
        refine ⟨[], q :: qs, ?_, by simp⟩
        rw [List.nil_append, ← hb]
      | cons x xs2 =>
        simp only [List.cons_append] at heq
        obtain ⟨hb, hy⟩ := List.cons.inj heq
        refine ⟨b :: q :: xs2, ys, ?_, ?_⟩
        · simp only [List.cons_append]
          rw [← hy]
        · intro a ha
          have hxb : key (pyMin key b qs) < key b := by
            have := hlt x (by simp)
            rwa [← hb] at this
          rcases List.mem_cons.mp ha with rfl | ha2
          · exact hxb
          · rcases List.mem_cons.mp ha2 with rfl | ha3
            · exact lt_of_lt_of_le hxb h
            · exact hlt a (by simp [ha3])

/-- Erasing an element that satisfies `p` leaves the `fun x => ! p x`
filtration unchanged. -/
theorem filter_erase_same {α : Type} [DecidableEq α] (p : α → Bool) {a : α}
    (ha : p a = true) (l : List α) :
    (l.erase a).filter (fun x => ! p x) = l.filter (fun x => ! p x) := by
  induction l with
  | nil => rfl
  | cons x xs ih =>
    by_cases hx : x = a
    · subst hx
      rw [List.erase_cons_head, List.filter_cons, if_neg (by simp [ha])]
    · rw [List.erase_cons_tail (by simp [hx]), List.filter_cons, List.filter_cons]
      by_cases hc : p x
      · rw [if_neg (by simp [hc]), if_neg (by simp [hc]), ih]
      · rw [if_pos (by simp [hc]), if_pos (by simp [hc]), ih]

/-- The greedy loop's output is a permutation of its input, for every fuel
value. -/
theorem order_route_fuel_perm (dist : ℚ × ℚ → ℚ × ℚ → ℚ) :
    ∀ (fuel : ℕ) (remaining : List Poi) (current : ℚ × ℚ),
    (order_route_fuel dist fuel remaining current).Perm remaining := by
  intro fuel
  induction fuel with
  | zero => intro remaining current; exact List.Perm.refl _
  | succ n ih =>
    intro remaining current
    cases hf : remaining.filter hasCoords with
    | nil =>
      simp only [order_route_fuel, hf]
      exact List.Perm.refl _
    | cons v vs =>
      simp only [order_route_fuel, hf]
      have hmem : pyMin (fun p => dist current (coords p)) v vs ∈ remaining := by
        have h1 := pyMin_mem (fun p => dist current (coords p)) v vs
        rw [← hf] at h1
        exact List.mem_of_mem_filter h1
      exact List.Perm.trans (List.Perm.cons _ (ih _ _))
        (List.perm_cons_erase hmem).symm

/-- With adequate fuel, the greedy loop's output is some list of
coordinate-bearing places followed by exactly the coordinate-less places
in their original relative order. -/
theorem order_route_fuel_suffix (dist : ℚ × ℚ → ℚ × ℚ → ℚ) :
    ∀ (fuel : ℕ) (remaining : List Poi) (current : ℚ × ℚ),
    remaining.length ≤ fuel →
    ∃ A, order_route_fuel dist fuel remaining current
        = A ++ remaining.filter (fun p => ! hasCoords p) ∧
      ∀ p ∈ A, hasCoords p = true := by
  intro fuel
  induction fuel with
  | zero =>
    intro remaining current hlen
    have hnil : remaining = [] := List.length_eq_zero.mp (Nat.le_zero.mp hlen)
    subst hnil
    exact ⟨[], rfl, by simp⟩
  | succ n ih =>
    intro remaining current hlen
    cases hf : remaining.filter hasCoords with
    | nil =>
      have hall := List.filter_eq_nil_iff.mp hf
      refine ⟨[], ?_, by simp⟩
      simp only [order_route_fuel, hf, List.nil_append]
      symm
      apply List.filter_eq_self.mpr
      intro a ha
      simp only [Bool.not_eq_true']
      exact Bool.not_eq_true _ |>.mp (hall a ha)
    | cons v vs =>
      have hmemf : pyMin (fun p => dist current (coords p)) v vs
          ∈ remaining.filter hasCoords := by
        rw [hf]; exact pyMin_mem _ v vs
      have hmem : pyMin (fun p => dist current (coords p)) v vs ∈ remaining :=
        List.mem_of_mem_filter hmemf
      have hvalid : hasCoords (pyMin (fun p => dist current (coords p)) v vs) = true :=
        (List.mem_filter.mp hmemf).2
      have hlen2 : (remaining.erase (pyMin (fun p => dist current (coords p)) v vs)).length ≤ n := by
        have h2 := List.length_erase_add_one hmem
        omega
      obtain ⟨A, hA, hAv⟩ := ih _ (coords (pyMin (fun p => dist current (coords p)) v vs)) hlen2
      refine ⟨pyMin (fun p => dist current (coords p)) v vs :: A, ?_, ?_⟩
      · simp only [order_route_fuel, hf]
        rw [hA, filter_erase_same hasCoords hvalid, List.cons_append]
      · intro p hp
        rcases List.mem_cons.mp hp with rfl | hp2
        · exact hvalid
        · exact hAv p hp2

/-- Claim C6: for every input the routing output is a permutation of the
input (same length, same elements; empty input gives empty output), and
the places missing a coordinate appear only after all coordinate-bearing
places, in their original relative order. -/
theorem c6_route_is_permutation (dist : ℚ × ℚ → ℚ × ℚ → ℚ) (pois : List Poi)
    (start : ℚ × ℚ) :
    (order_route dist pois start).Perm pois ∧
    (order_route dist pois start).length = pois.length ∧
    order_route dist [] start = [] ∧
    ∃ A, order_route dist pois start
        = A ++ pois.filter (fun p => ! hasCoords p) ∧
      ∀ p ∈ A, hasCoords p = true := by
  refine ⟨order_route_fuel_perm dist _ _ _,
    (order_route_fuel_perm dist _ _ _).length_eq, rfl, ?_⟩
  exact order_route_fuel_suffix dist pois.length pois start (le_refl _)

/-- Claim C5: whenever some remaining place has both coordinates, the
routing output starts with a coordinate-bearing place `n` whose distance
to the current position is minimal among all coordinate-bearing remaining
places — and among the minima `n` is the earliest in input order (every
valid place strictly before `n` is strictly farther) — followed by the
greedy route over the remaining places from `n`; this characterizes every
step of the loop, since the tail is again `order_route`. -/
theorem c5_greedy_nearest_first (dist : ℚ × ℚ → ℚ × ℚ → ℚ) (pois : List Poi)
    (start : ℚ × ℚ) (h : pois.filter hasCoords ≠ []) :
    ∃ n xs ys,
      order_route dist pois start
          = n :: order_route dist (pois.erase n) (coords n) ∧
      n ∈ pois.filter hasCoords ∧
      (∀ q ∈ pois.filter hasCoords,
        dist start (coords n) ≤ dist start (coords q)) ∧
      pois.filter hasCoords = xs ++ n :: ys ∧
      ∀ a ∈ xs, dist start (coords n) < dist start (coords a) := by
  cases hf : pois.filter hasCoords with
  | nil => exact absurd hf h
  | cons v vs =>
    have hmemf : pyMin (fun p => dist start (coords p)) v vs ∈ v :: vs :=
      pyMin_mem _ v vs
    have hmem : pyMin (fun p => dist start (coords p)) v vs ∈ pois := by
      have h2 := hmemf
      rw [← hf] at h2
      exact List.mem_of_mem_filter h2
    obtain ⟨xs, ys, hsplit, hlt⟩ := pyMin_first (fun p => dist start (coords p)) v vs
    refine ⟨pyMin (fun p => dist start (coords p)) v vs, xs, ys, ?_, hmemf, ?_,
      hsplit, hlt⟩
    · cases pois with
      | nil => simp at hf
      | cons p ps =>
        show order_route_fuel dist (ps.length + 1) (p :: ps) start = _
        simp only [order_route_fuel, hf]
        congr 1
        have hl : ((p :: ps).erase (pyMin (fun p => dist start (coords p)) v vs)).length
            = ps.length := by
          have h2 := List.length_erase_add_one hmem
          simp only [List.length_cons] at h2
          omega
        rw [order_route, hl]
    · intro q hq
      exact pyMin_key_le (fun p => dist start (coords p)) v vs q hq

/-- A place 10 units from the start. -/
def pB10 : Poi := ⟨"B", some 0, some 3, none, Value.vnone⟩

/-- A place 1 unit from the start. -/
def pC1 : Poi := ⟨"C", some 0, some 1, none, Value.vnone⟩

/-- Witness for C5: on `[B, C]` with `B` 3000 m and `C` 1000 m from the
start, the characterization holds (and forces `C` first). -/
theorem c5_greedy_nearest_first_witness :
    [pB10, pC1].filter hasCoords ≠ [] ∧
    ∃ n xs ys,
      order_route tblDist [pB10, pC1] (0, 0)
          = n :: order_route tblDist ([pB10, pC1].erase n) (coords n) ∧
      n ∈ [pB10, pC1].filter hasCoords ∧
      (∀ q ∈ [pB10, pC1].filter hasCoords,
        tblDist (0, 0) (coords n) ≤ tblDist (0, 0) (coords q)) ∧
      [pB10, pC1].filter hasCoords = xs ++ n :: ys ∧
      ∀ a ∈ xs, tblDist (0, 0) (coords n) < tblDist (0, 0) (coords a) :=
  ⟨by decide, c5_greedy_nearest_first tblDist [pB10, pC1] (0, 0) (by decide)⟩

end WeekendWish
